import Mathlib

/-! slack-gpt: the blocklist filter, the configuration reload and the message pipeline

A shallow embedding of `cmd/app/app.go` and `pkg/gpt/gpt.go`.

* Go strings are embedded as `String`; the functions of package `strings` that the
  program calls are defined on the character lists (on well-formed UTF-8 the substring
  and prefix tests on characters agree with those on bytes). `strings.ToLower` is
  embedded on the ASCII letters; the general statements below use no property of it, the
  examples use ASCII texts only.
* A compiled `*regexp.Regexp` is a value carrying its source expression and its
  `MatchString` function; `regexp.Compile` is an argument of the load step.
* The package-level variables `blockedKeywords` and `compiledRegexes` are the two
  fields of `Globals`, passed explicitly.
* The Slack client and the completion client are records of response functions; every
  call the program makes on them is recorded, in order, in a trace of `Action`s.
* Logging and timing (`log.Debug`, `time.Now`) have no effect on any value modelled
  here and are left out.
-/

namespace SlackGPT

/-! ## Package `strings` -/

namespace strings

/-- Lower-casing of a string, `strings.ToLower`, on ASCII letters: `A`..`Z` are moved to
`a`..`z` and every other character is kept. -/
def ToLower (s : String) : String := ⟨s.data.map Char.toLower⟩

/-- Character-list form of `strings.HasPrefix`. -/
def hasPrefixChars : List Char → List Char → Bool
  | _, [] => true
  | [], _ :: _ => false
  | c :: s, p :: ps => if c = p then hasPrefixChars s ps else false

/-- Character-list form of `strings.Contains`: the first position at which `substr`
starts is searched from the left. -/
def containsChars : List Char → List Char → Bool
  | [], substr => hasPrefixChars [] substr
  | c :: s, substr => if hasPrefixChars (c :: s) substr then true else containsChars s substr

/-- The test `strings.HasPrefix(s, pre)`. -/
def HasPrefix (s pre : String) : Bool := hasPrefixChars s.data pre.data

/-- The test `strings.Contains(s, substr)`. -/
def Contains (s substr : String) : Bool := containsChars s.data substr.data

/-- The function `strings.TrimPrefix(s, pre)`: `s` without the leading `pre`, or `s` itself
when it does not start with `pre`. -/
def TrimPrefix (s pre : String) : String :=
  if HasPrefix s pre then ⟨s.data.drop pre.data.length⟩ else s

end strings

/-! ## Configuration and the active rules -/

/-- The configuration document, `type Config struct`. -/
structure Config where
  BlockedKeywords : List String
  RegexPatterns : List String

/-- A compiled regular expression: the expression it was compiled from and its
`MatchString` method. -/
structure Regexp where
  expr : String
  MatchString : String → Bool

/-- The package-level variables `blockedKeywords` and `compiledRegexes`. -/
structure Globals where
  blockedKeywords : List String
  compiledRegexes : List Regexp

/-- The first loop of `blockMessage`: `true` at the first keyword contained in the text. -/
def blockMessage.keywordLoop (lowercaseText : String) : List String → Bool
  | [] => false
  | keyword :: rest =>
    if strings.Contains lowercaseText keyword then true
    else blockMessage.keywordLoop lowercaseText rest

/-- The second loop of `blockMessage`: `true` at the first expression matching the text. -/
def blockMessage.regexLoop (lowercaseText : String) : List Regexp → Bool
  | [] => false
  | regex :: rest =>
    if regex.MatchString lowercaseText then true
    else blockMessage.regexLoop lowercaseText rest

/-- The function `blockMessage(text)`, reading the two package-level variables. -/
def blockMessage (g : Globals) (text : String) : Bool :=
  let lowercaseText := strings.ToLower text
  if blockMessage.keywordLoop lowercaseText g.blockedKeywords then true
  else if blockMessage.regexLoop lowercaseText g.compiledRegexes then true
  else false

/-- How a step of the program ends: it returns a value, it panics (which, in a
goroutine without `recover`, ends the process) or it exits through `log.Fatal`. The
panic carries the package-level variables as they stand at that moment. -/
inductive Outcome (α : Type) where
  | done (a : α)
  | panic (msg : String) (at_ : Globals)
  | fatal (msg : String)

/-- The loop `for _, pattern := range config.RegexPatterns` of `setupConfigWatcher`:
each pattern is compiled and appended to `compiledRegexes`; a pattern that does not
compile panics. -/
def compileLoop (compile : String → Except String Regexp) :
    List String → Globals → Outcome Globals
  | [], g => .done g
  | pattern :: rest, g =>
    match compile pattern with
    | .error err => .panic ("Failed to compile regex pattern: " ++ err) g
    | .ok compiledRegex =>
      compileLoop compile rest { g with compiledRegexes := g.compiledRegexes ++ [compiledRegex] }

/-- The block that both the start-up path and the write-event path of
`setupConfigWatcher` run on a loaded configuration: `blockedKeywords` is assigned, then
the patterns are compiled and appended to `compiledRegexes`. -/
def applyConfig (compile : String → Except String Regexp) (g : Globals) (config : Config) :
    Outcome Globals :=
  compileLoop compile config.RegexPatterns { g with blockedKeywords := config.BlockedKeywords }

/-- What the watcher goroutine does on a write event, given the result of
`loadConfig("config.yaml")`: a load error is logged and the variables are untouched;
otherwise the configuration is applied and "Config reloaded" is logged. The first
component of the result is the log. -/
def onWriteEvent (compile : String → Except String Regexp) (g : Globals)
    (loaded : Except String Config) : Outcome (List String × Globals) :=
  match loaded with
  | .error err => .done (["Failed to load config:" ++ err], g)
  | .ok config =>
    match applyConfig compile g config with
    | .panic msg g1 => .panic msg g1
    | .fatal msg => .fatal msg
    | .done g1 => .done (["Config reloaded"], g1)

/-- The start-up path of `setupConfigWatcher` after the watcher is installed: the
variables start empty; a load error is fatal (`log.Fatal`). -/
def setupConfigWatcher (compile : String → Except String Regexp)
    (loaded : Except String Config) : Outcome Globals :=
  match loaded with
  | .error err => .fatal err
  | .ok config => applyConfig compile ⟨[], []⟩ config

/-! ## Package `gpt` -/

/-- The two roles the program uses, `openai.ChatMessageRoleAssistant` and
`openai.ChatMessageRoleUser`. -/
inductive Role where
  | assistant
  | user
  deriving DecidableEq, Repr

/-- The fields of `openai.ChatCompletionMessage` that the program sets. -/
structure ChatCompletionMessage where
  Role : Role
  Content : String
  deriving DecidableEq, Repr

/-- The fields of `openai.ChatCompletionRequest` that the program sets. -/
structure ChatCompletionRequest where
  Model : String
  Messages : List ChatCompletionMessage
  deriving DecidableEq, Repr

/-- The receiver `type GPT struct`: the model name and the client, whose
`CreateChatCompletion` answers a request with an error or with the contents of the
choices of the response. -/
structure GPT where
  model : String
  CreateChatCompletion : ChatCompletionRequest → Except String (List String)

/-- The loop `for idx, msg := range msgs` of `GPT.Invoke`, for a list of `len` strings:
it stops at index `len - 1` and appends every earlier string as an assistant message. -/
def GPT.Invoke.rangeLoop (len : Nat) :
    Nat → List String → List ChatCompletionMessage → List ChatCompletionMessage
  | _, [], messages => messages
  | idx, msg :: rest, messages =>
    if idx = len - 1 then messages
    else GPT.Invoke.rangeLoop len (idx + 1) rest (messages ++ [⟨Role.assistant, msg⟩])

/-- The slice `messages` that `GPT.Invoke` builds (lines 26 to 43); `none` when the index
expression `msgs[len(msgs)-1]` is out of range. -/
def GPT.Invoke.messages (msgs : List String) : Option (List ChatCompletionMessage) :=
  let messages : List ChatCompletionMessage := []
  let messages :=
    if msgs.length > 1 then GPT.Invoke.rangeLoop msgs.length 0 msgs messages else messages
  match msgs[msgs.length - 1]? with
  | none => none
  | some last => some (messages ++ [⟨Role.user, last⟩])

/-- The three ways `GPT.Invoke` ends. -/
inductive InvokeResult where
  | ok (messageText : String)
  | err (msg : String)
  | panic (msg : String)
  deriving DecidableEq, Repr

/-- The method `GPT.Invoke(msgs)`: the requests sent to the completion API, in order,
and the result. -/
def GPT.Invoke (gpt : GPT) (msgs : List String) : List ChatCompletionRequest × InvokeResult :=
  match GPT.Invoke.messages msgs with
  | none => ([], .panic "index out of range")
  | some messages =>
    let request : ChatCompletionRequest := ⟨gpt.model, messages⟩
    match gpt.CreateChatCompletion request with
    | .error err => ([request], .err ("ChatCompletion error: " ++ err))
    | .ok choices =>
      match choices with
      | [] => ([request], .panic "index out of range")
      | content :: _ => ([request], .ok content)

/-! ## The message pipeline of `cmd/app` -/

/-- The fields of `slack.Message` that the program reads. -/
structure Message where
  BotID : String
  Text : String
  deriving DecidableEq, Repr

/-- The content of a message option passed to the Slack client: a text
(`slack.MsgOptionText`) or a section block holding a markdown text
(`slack.MsgOptionBlocks`). -/
inductive MsgContent where
  | text (s : String)
  | blocks (markdown : String)
  deriving DecidableEq, Repr

/-- A call the program makes on one of its two clients. -/
inductive Action where
  | SendMessage (channel : String) (text : String) (ts : String)
  | GetConversationReplies (channel : String) (timestamp : String)
  | PostEphemeral (channel : String) (user : String) (text : String)
  | UpdateMessage (channel : String) (timestamp : String) (content : MsgContent)
  | Invoke (msgs : List String)
  | CreateChatCompletion (request : ChatCompletionRequest)
  deriving DecidableEq, Repr

/-- The Slack client: the answers to the calls whose result the program reads.
`SendMessage` answers with the timestamp of the posted message. -/
structure Client where
  SendMessage : String → String → String → Except String String
  GetConversationReplies : String → String → Except String (List Message)
  UpdateMessage : String → String → MsgContent → Except String Unit

/-- What a handler returns: `nil`, an error, or a panic. -/
inductive Result where
  | nil
  | err (msg : String)
  | panic (msg : String)
  deriving DecidableEq, Repr

/-- A run of a handler: the calls made, in order, and the value returned. -/
structure Run where
  trace : List Action
  result : Result
  deriving DecidableEq, Repr

/-- The loop `for _, message := range history` of `processMessage`. -/
def processMessage.historyLoop : List Message → List String → List String
  | [], threadMessages => threadMessages
  | message :: rest, threadMessages =>
    if message.BotID = "U05L1SWMW4B" ∧ message.Text ≠ "Your request is being processed..." then
      processMessage.historyLoop rest (threadMessages ++ [message.Text])
    else processMessage.historyLoop rest threadMessages

/-- The block `if isPartOfThread` of `processMessage`: the calls made and the value of
`threadMessages` after it. -/
def processMessage.threadContext (client : Client) (channel userId threadTimestamp : String)
    (isPartOfThread : Bool) : List Action × List String :=
  let threadMessages : List String := []
  if isPartOfThread then
    match client.GetConversationReplies channel threadTimestamp with
    | .error err =>
      ([.GetConversationReplies channel threadTimestamp,
        .PostEphemeral channel userId ("Error getting conversation history: " ++ err)],
       threadMessages)
    | .ok history =>
      ([.GetConversationReplies channel threadTimestamp],
       processMessage.historyLoop history threadMessages)
  else ([], threadMessages)

/-- The calls `GPT.Invoke` makes, as actions: the call itself, then its requests. -/
def invokeActions (gptClient : GPT) (msgs : List String) : List Action :=
  .Invoke msgs :: (gptClient.Invoke msgs).1.map .CreateChatCompletion

/-- The function `processMessage`. The error returned after a failed completion formats
the variable `err`, which is `nil` there, hence the text `<nil>`. -/
def processMessage (g : Globals) (client : Client) (gptClient : GPT)
    (channel text userId timestamp threadTimestamp : String) (isPartOfThread : Bool) : Run :=
  let userInput := text
  let block := blockMessage g userInput
  if block then
    ⟨[.SendMessage channel
        "Your request was blocked because it contained a blocked keyword or sensitive data."
        timestamp], .nil⟩
  else
    let posted : List Action :=
      [.SendMessage channel "Your request is being processed..." timestamp]
    match client.SendMessage channel "Your request is being processed..." timestamp with
    | .error err => ⟨posted, .err ("failed posting initial processing message: " ++ err)⟩
    | .ok tempMessageTimestamp =>
      let ctx := processMessage.threadContext client channel userId threadTimestamp isPartOfThread
      let threadMessages := ctx.2 ++ [userInput]
      let calls := posted ++ ctx.1 ++ invokeActions gptClient threadMessages
      match (gptClient.Invoke threadMessages).2 with
      | .panic msg => ⟨calls, .panic msg⟩
      | .err messageErr =>
        ⟨calls ++ [.UpdateMessage channel tempMessageTimestamp
            (.text ("ChatCompletion error: " ++ messageErr))],
         .err "ChatCompletion error: <nil>"⟩
      | .ok messageText =>
        let update : Action := .UpdateMessage channel tempMessageTimestamp (.blocks messageText)
        match client.UpdateMessage channel tempMessageTimestamp (.blocks messageText) with
        | .error err => ⟨calls ++ [update], .err ("error updating message: " ++ err)⟩
        | .ok _ => ⟨calls ++ [update], .nil⟩

/-- The fields of `slackevents.AppMentionEvent` that the program reads. -/
structure AppMentionEvent where
  User : String
  Text : String
  TimeStamp : String
  ThreadTimeStamp : String
  Channel : String

/-- The fields of `slackevents.MessageEvent` that the program reads. -/
structure MessageEvent where
  User : String
  Text : String
  TimeStamp : String
  ThreadTimeStamp : String
  Channel : String
  SubType : String
  BotID : String

/-- The handler `handleAppMentionEvent`. -/
def handleAppMentionEvent (g : Globals) (client : Client) (gptClient : GPT)
    (ev : AppMentionEvent) : Run :=
  let isPartOfThread : Bool := ev.ThreadTimeStamp ≠ "" ∧ ev.ThreadTimeStamp ≠ ev.TimeStamp
  processMessage g client gptClient ev.Channel (strings.TrimPrefix ev.Text "<@bot>") ev.User
    ev.TimeStamp ev.ThreadTimeStamp isPartOfThread

/-- The handler `handleMessageEvent`. -/
def handleMessageEvent (g : Globals) (client : Client) (gptClient : GPT)
    (ev : MessageEvent) : Run :=
  if ev.User ≠ "U05L1SWMW4B" ∧ ev.SubType ≠ "message_changed" ∧ ev.BotID = "" then
    let isPartOfThread : Bool := ev.ThreadTimeStamp ≠ "" ∧ ev.ThreadTimeStamp ≠ ev.TimeStamp
    processMessage g client gptClient ev.Channel ev.Text ev.User ev.TimeStamp ev.ThreadTimeStamp
      isPartOfThread
  else ⟨[], .nil⟩

/-- The message lists passed to `GPT.Invoke` in a trace, in order. -/
def invocations : List Action → List (List String)
  | [] => []
  | .Invoke msgs :: rest => msgs :: invocations rest
  | _ :: rest => invocations rest

/-- The requests sent to the completion API in a trace, in order. -/
def completionCalls : List Action → List ChatCompletionRequest
  | [] => []
  | .CreateChatCompletion request :: rest => request :: completionCalls rest
  | _ :: rest => completionCalls rest

/-! ## Sample expressions

Concrete values for the examples: two compiled expressions, given by what their
`MatchString` computes, and the answers of `regexp.Compile` on a few patterns. -/

/-- Whether the characters at the head of `s` satisfy the tests of `classes`, one each. -/
def matchClassesAt : List (Char → Bool) → List Char → Bool
  | [], _ => true
  | _ :: _, [] => false
  | cl :: cls, c :: s => if cl c then matchClassesAt cls s else false

/-- Whether some position of `s` starts a run of characters satisfying `classes`: the
unanchored match of a sequence of character classes. -/
def findClasses (classes : List (Char → Bool)) : List Char → Bool
  | [] => matchClassesAt classes []
  | c :: s => if matchClassesAt classes (c :: s) then true else findClasses classes s

/-- The class `[A-Z]`. -/
def classUpper (c : Char) : Bool := decide ('A' ≤ c ∧ c ≤ 'Z')

/-- The class `\d`. -/
def classDigit (c : Char) : Bool := decide ('0' ≤ c ∧ c ≤ '9')

/-- The expression `[A-Z]{3}`, compiled. -/
def upperRun : Regexp :=
  ⟨"[A-Z]{3}", fun s => findClasses [classUpper, classUpper, classUpper] s.data⟩

/-- The expression `\d{3}-\d{2}-\d{4}` of the scenario of the specification, compiled. -/
def ssnPattern : Regexp :=
  ⟨"\\d{3}-\\d{2}-\\d{4}", fun s =>
    findClasses [classDigit, classDigit, classDigit, (· = '-'), classDigit, classDigit,
      (· = '-'), classDigit, classDigit, classDigit, classDigit] s.data⟩

/-- The answers of `regexp.Compile` on the patterns of the examples: the two expressions
above, and `(`, which has no closing parenthesis and is rejected. No statement below
applies the sample to another pattern; on those it answers with an error of its own. -/
def compileSample (pattern : String) : Except String Regexp :=
  if pattern = "[A-Z]{3}" then .ok upperRun
  else if pattern = "\\d{3}-\\d{2}-\\d{4}" then .ok ssnPattern
  else if pattern = "(" then .error "error parsing regexp: missing closing ): `(`"
  else .error "pattern outside the sample"

/-- A Slack client on which every call succeeds; posted messages get timestamp `2`. -/
def clientOk (history : List Message) : Client :=
  ⟨fun _ _ _ => .ok "2", fun _ _ => .ok history, fun _ _ _ => .ok ()⟩

/-- A Slack client on which posting a message fails. -/
def clientPostFails : Client :=
  ⟨fun _ _ _ => .error "channel_not_found", fun _ _ => .ok [], fun _ _ _ => .ok ()⟩

/-- A Slack client on which fetching the replies of a thread fails. -/
def clientFetchFails : Client :=
  ⟨fun _ _ _ => .ok "2", fun _ _ => .error "thread_not_found", fun _ _ _ => .ok ()⟩

/-- A completion client that answers every request with one choice. -/
def gptOk : GPT := ⟨"gpt-3.5-turbo", fun _ => .ok ["hello"]⟩

/-! ## Lemmas on the string functions and on the filter -/

theorem strings.hasPrefixChars_iff (s pre : List Char) :
    strings.hasPrefixChars s pre = true ↔ pre <+: s := by
  induction s generalizing pre with
  | nil => cases pre <;> simp [strings.hasPrefixChars]
  | cons c s ih =>
    cases pre with
    | nil => simp [strings.hasPrefixChars]
    | cons p ps =>
      by_cases h : c = p
      · subst h
        simp [strings.hasPrefixChars, ih, List.cons_prefix_cons]
      · have h2 : ¬ p = c := fun e => h e.symm
        simp [strings.hasPrefixChars, h, h2, List.cons_prefix_cons]

theorem strings.containsChars_iff (s substr : List Char) :
    strings.containsChars s substr = true ↔ substr <:+: s := by
  induction s with
  | nil =>
    simp only [strings.containsChars, strings.hasPrefixChars_iff]
    constructor
    · intro h; exact h.isInfix
    · intro h
      have : substr = [] := List.eq_nil_of_infix_nil h
      subst this; exact List.prefix_refl _
  | cons c s ih =>
    simp only [strings.containsChars]
    rw [List.infix_cons_iff]
    by_cases h : strings.hasPrefixChars (c :: s) substr = true
    · simp only [h, if_true, true_iff]
      exact Or.inl ((strings.hasPrefixChars_iff _ _).1 h)
    · have hn : ¬ substr <+: c :: s := fun hp => h ((strings.hasPrefixChars_iff _ _).2 hp)
      simp only [h, if_false, ih, Bool.false_eq_true]
      constructor
      · intro hi; exact Or.inr hi
      · rintro (hp | hi)
        · exact absurd hp hn
        · exact hi

/-- The model of `strings.Contains` decides the substring relation. -/
theorem strings.Contains_iff (s substr : String) :
    strings.Contains s substr = true ↔ substr.data <:+: s.data :=
  strings.containsChars_iff _ _

theorem blockMessage.keywordLoop_iff (t : String) (ks : List String) :
    blockMessage.keywordLoop t ks = true ↔ ∃ k ∈ ks, strings.Contains t k = true := by
  induction ks with
  | nil => simp [blockMessage.keywordLoop]
  | cons k ks ih =>
    by_cases h : strings.Contains t k = true
    · simp [blockMessage.keywordLoop, h]
    · simp [blockMessage.keywordLoop, h, ih]

theorem blockMessage.regexLoop_iff (t : String) (rs : List Regexp) :
    blockMessage.regexLoop t rs = true ↔ ∃ r ∈ rs, r.MatchString t = true := by
  induction rs with
  | nil => simp [blockMessage.regexLoop]
  | cons r rs ih =>
    by_cases h : r.MatchString t = true
    · simp [blockMessage.regexLoop, h]
    · simp [blockMessage.regexLoop, h, ih]

theorem blockMessage_iff (g : Globals) (text : String) :
    blockMessage g text = true ↔
      (∃ k ∈ g.blockedKeywords, strings.Contains (strings.ToLower text) k = true) ∨
      (∃ r ∈ g.compiledRegexes, r.MatchString (strings.ToLower text) = true) := by
  unfold blockMessage
  simp only []
  rw [← blockMessage.keywordLoop_iff, ← blockMessage.regexLoop_iff]
  by_cases h1 : blockMessage.keywordLoop (strings.ToLower text) g.blockedKeywords = true
  · simp [h1]
  · by_cases h2 : blockMessage.regexLoop (strings.ToLower text) g.compiledRegexes = true
    · simp [h1, h2]
    · simp [h1, h2]

/-! ## Lemmas on the load step -/

theorem compileLoop_done (compile : String → Except String Regexp) (ps : List String)
    (g g1 : Globals) (h : compileLoop compile ps g = .done g1) :
    g1.blockedKeywords = g.blockedKeywords ∧
      ∃ rs, List.Forall₂ (fun p r => compile p = .ok r) ps rs ∧
        g1.compiledRegexes = g.compiledRegexes ++ rs := by
  induction ps generalizing g with
  | nil =>
    simp only [compileLoop, Outcome.done.injEq] at h
    subst h
    exact ⟨rfl, [], List.Forall₂.nil, by simp⟩
  | cons p ps ih =>
    simp only [compileLoop] at h
    cases hc : compile p with
    | error e => rw [hc] at h; cases h
    | ok r =>
      rw [hc] at h
      obtain ⟨hk, rs, hrs, hre⟩ := ih _ h
      exact ⟨hk, r :: rs, List.Forall₂.cons hc hrs, by simp [hre]⟩

theorem compileLoop_panic (compile : String → Except String Regexp) (ps : List String)
    (g : Globals) (hbad : ∃ p ∈ ps, ∃ e, compile p = .error e) :
    ∃ pre p post e g1, ps = pre ++ p :: post ∧ (∀ q ∈ pre, ∃ r, compile q = .ok r) ∧
      compile p = .error e ∧
      compileLoop compile ps g = .panic ("Failed to compile regex pattern: " ++ e) g1 ∧
      g1.blockedKeywords = g.blockedKeywords := by
  induction ps generalizing g with
  | nil => obtain ⟨p, hp, _⟩ := hbad; cases hp
  | cons p ps ih =>
    cases hc : compile p with
    | error e =>
      refine ⟨[], p, ps, e, g, rfl, ?_, hc, ?_, rfl⟩
      · intro q hq; cases hq
      · simp only [compileLoop, hc]
    | ok r =>
      have hbad2 : ∃ q ∈ ps, ∃ e, compile q = .error e := by
        obtain ⟨q, hq, e, he⟩ := hbad
        rcases List.mem_cons.1 hq with rfl | hq
        · rw [hc] at he; cases he
        · exact ⟨q, hq, e, he⟩
      obtain ⟨pre, q, post, e, g1, hps, hpre, hq, hrun, hk⟩ :=
        ih { g with compiledRegexes := g.compiledRegexes ++ [r] } hbad2
      refine ⟨p :: pre, q, post, e, g1, by simp [hps], ?_, hq, ?_, hk⟩
      · intro x hx
        rcases List.mem_cons.1 hx with rfl | hx
        · exact ⟨r, hc⟩
        · exact hpre x hx
      · simp only [compileLoop, hc]
        exact hrun

theorem applyConfig_done (compile : String → Except String Regexp) (g g1 : Globals)
    (config : Config) (h : applyConfig compile g config = .done g1) :
    g1.blockedKeywords = config.BlockedKeywords ∧
      ∃ rs, List.Forall₂ (fun p r => compile p = .ok r) config.RegexPatterns rs ∧
        g1.compiledRegexes = g.compiledRegexes ++ rs :=
  compileLoop_done compile _ _ _ h

theorem onWriteEvent_done (compile : String → Except String Regexp) (g g1 : Globals)
    (config : Config) (log : List String)
    (h : onWriteEvent compile g (.ok config) = .done (log, g1)) :
    applyConfig compile g config = .done g1 := by
  simp only [onWriteEvent] at h
  cases ha : applyConfig compile g config with
  | done g2 => rw [ha] at h; simp only [Outcome.done.injEq, Prod.mk.injEq] at h; rw [h.2]
  | panic m g2 => rw [ha] at h; cases h
  | fatal m => rw [ha] at h; cases h

/-! ## The claims on the filter and on the load step -/

/-- C1, as the code has it: for a rule set loaded from a configuration document (at
start-up or on a write event), every keyword `K` of the document and every text `T`
whose lower-cased form contains `K` exactly as the document writes it, `blockMessage`
answers `true`. Keywords are stored as written. -/
theorem C1_keyword_as_written (compile : String → Except String Regexp) (g g1 : Globals)
    (D : Config) (K T : String)
    (hload : setupConfigWatcher compile (.ok D) = .done g1 ∨
      ∃ log, onWriteEvent compile g (.ok D) = .done (log, g1))
    (hK : K ∈ D.BlockedKeywords)
    (hT : K.data <:+: (strings.ToLower T).data) :
    blockMessage g1 T = true := by
  have hk : g1.blockedKeywords = D.BlockedKeywords := by
    rcases hload with h | ⟨log, h⟩
    · exact (applyConfig_done compile _ _ _ h).1
    · exact (applyConfig_done compile _ _ _ (onWriteEvent_done compile _ _ _ _ h)).1
  rw [blockMessage_iff]
  exact Or.inl ⟨K, hk ▸ hK, (strings.Contains_iff _ _).2 hT⟩

/-- C1, witness: the document with the keyword `secret` and the text `my SECRET token`. -/
theorem C1_keyword_as_written_witness :
    blockMessage ⟨["secret"], []⟩ "my SECRET token" = true :=
  C1_keyword_as_written compileSample ⟨[], []⟩ ⟨["secret"], []⟩ ⟨["secret"], []⟩ "secret"
    "my SECRET token" (Or.inl rfl) (by decide) (by decide)

/-- C1, as stated, fails: the document lists the keyword `SECRET`, the text
`my secret token` contains it case-insensitively, and the loaded rule set lets the text
through. -/
theorem C1_counterexample :
    setupConfigWatcher compileSample (.ok ⟨["SECRET"], []⟩) = .done ⟨["SECRET"], []⟩ ∧
    "SECRET" ∈ (Config.mk ["SECRET"] []).BlockedKeywords ∧
    (strings.ToLower "SECRET").data <:+: (strings.ToLower "my secret token").data ∧
    blockMessage ⟨["SECRET"], []⟩ "my secret token" = false :=
  ⟨rfl, by decide, by decide, by decide⟩

/-- C2, as the code has it: for every rule set, every compiled pattern `P` in it and
every text `T` whose lower-cased form `P` matches, `blockMessage` answers `true`. -/
theorem C2_pattern_on_lowercase (g : Globals) (P : Regexp) (T : String)
    (hP : P ∈ g.compiledRegexes) (hT : P.MatchString (strings.ToLower T) = true) :
    blockMessage g T = true := by
  rw [blockMessage_iff]
  exact Or.inr ⟨P, hP, hT⟩

/-- C2, witness: the pattern of the scenario and the text `ssn 123-45-6789`. -/
theorem C2_pattern_on_lowercase_witness :
    blockMessage ⟨["secret"], [ssnPattern]⟩ "ssn 123-45-6789" = true :=
  C2_pattern_on_lowercase ⟨["secret"], [ssnPattern]⟩ ssnPattern "ssn 123-45-6789"
    (by simp) (by decide)

/-- C2, as stated, fails: `[A-Z]{3}` matches the text `ABC`, and the rule set holding
that pattern lets `ABC` through, because the pattern is applied to `abc`. -/
theorem C2_counterexample :
    upperRun ∈ (Globals.mk [] [upperRun]).compiledRegexes ∧
    upperRun.MatchString "ABC" = true ∧
    strings.ToLower "ABC" = "abc" ∧
    upperRun.MatchString "abc" = false ∧
    blockMessage ⟨[], [upperRun]⟩ "ABC" = false :=
  ⟨by simp, by decide, by decide, by decide, by decide⟩

/-- C3, the code at the failing input: the active rule set holds the pattern
`\d{3}-\d{2}-\d{4}`; a write event loads a document with the same keyword and no
pattern. The reload succeeds, the pattern is still active and still blocks
`ssn 123-45-6789`. And a document with one pattern, reloaded twice, leaves two compiled
patterns where one reload leaves one. -/
theorem C3_reload_keeps_old_patterns :
    onWriteEvent compileSample ⟨["secret"], [ssnPattern]⟩ (.ok ⟨["secret"], []⟩) =
      .done (["Config reloaded"], ⟨["secret"], [ssnPattern]⟩) ∧
    blockMessage ⟨["secret"], [ssnPattern]⟩ "ssn 123-45-6789" = true ∧
    blockMessage ⟨["secret"], []⟩ "ssn 123-45-6789" = false ∧
    onWriteEvent compileSample ⟨[], []⟩ (.ok ⟨[], ["[A-Z]{3}"]⟩) =
      .done (["Config reloaded"], ⟨[], [upperRun]⟩) ∧
    onWriteEvent compileSample ⟨[], [upperRun]⟩ (.ok ⟨[], ["[A-Z]{3}"]⟩) =
      .done (["Config reloaded"], ⟨[], [upperRun, upperRun]⟩) :=
  ⟨rfl, by decide, by decide, rfl, rfl⟩

/-- C4, as the code has it: for every active rule set `R` and every document in which
some pattern fails to compile, the reload step on a write event panics with the message
`Failed to compile regex pattern: ` followed by the compile error of the first failing
pattern; it returns no rule set. A document that fails to load is, by contrast, logged
and leaves the active rule set equal to `R`. -/
theorem C4_reload_panics (compile : String → Except String Regexp) (R : Globals) (D : Config)
    (hbad : ∃ p ∈ D.RegexPatterns, ∃ e, compile p = .error e) :
    (∃ pre p post e at_, D.RegexPatterns = pre ++ p :: post ∧
      (∀ q ∈ pre, ∃ r, compile q = .ok r) ∧ compile p = .error e ∧
      onWriteEvent compile R (.ok D) =
        .panic ("Failed to compile regex pattern: " ++ e) at_) ∧
    (∀ err, onWriteEvent compile R (.error err) =
      .done (["Failed to load config:" ++ err], R)) := by
  refine ⟨?_, fun err => rfl⟩
  obtain ⟨pre, p, post, e, g1, hps, hpre, hp, hrun, _⟩ :=
    compileLoop_panic compile D.RegexPatterns
      { R with blockedKeywords := D.BlockedKeywords } hbad
  refine ⟨pre, p, post, e, g1, hps, hpre, hp, ?_⟩
  simp only [onWriteEvent, applyConfig, hrun]

/-- C4, witness: a document whose only pattern is `(`. -/
theorem C4_reload_panics_witness :
    (∃ pre p post e at_, (Config.mk ["token"] ["("]).RegexPatterns = pre ++ p :: post ∧
      (∀ q ∈ pre, ∃ r, compileSample q = .ok r) ∧ compileSample p = .error e ∧
      onWriteEvent compileSample ⟨["secret"], []⟩ (.ok ⟨["token"], ["("]⟩) =
        .panic ("Failed to compile regex pattern: " ++ e) at_) ∧
    (∀ err, onWriteEvent compileSample ⟨["secret"], []⟩ (.error err) =
      .done (["Failed to load config:" ++ err], ⟨["secret"], []⟩)) :=
  C4_reload_panics compileSample ⟨["secret"], []⟩ ⟨["token"], ["("]⟩
    ⟨"(", by simp, _, rfl⟩

/-- C4, as stated, fails: with the rule set `secret` active, a write event that loads a
document whose pattern `(` does not compile ends in a panic, not in a returned error, and
at the panic the keywords are already those of the new document. -/
theorem C4_counterexample :
    compileSample "(" = .error "error parsing regexp: missing closing ): `(`" ∧
    onWriteEvent compileSample ⟨["secret"], []⟩ (.ok ⟨["token"], ["("]⟩) =
      .panic "Failed to compile regex pattern: error parsing regexp: missing closing ): `(`"
        ⟨["token"], []⟩ ∧
    ¬ ∃ log, onWriteEvent compileSample ⟨["secret"], []⟩ (.ok ⟨["token"], ["("]⟩) =
      .done (log, ⟨["secret"], []⟩) :=
  ⟨rfl, rfl, fun ⟨_, h⟩ => by cases h⟩

/-- C5: `blockMessage(T)` is `true` exactly when some active keyword is a substring of
the lower-cased text or some active pattern matches the lower-cased text; a keyword hit
decides the answer whatever the patterns are; with no keyword and no pattern the answer
is `false` for every text. -/
theorem C5_blockMessage_iff (g : Globals) (T : String) :
    (blockMessage g T = true ↔
      (∃ k ∈ g.blockedKeywords, k.data <:+: (strings.ToLower T).data) ∨
      (∃ r ∈ g.compiledRegexes, r.MatchString (strings.ToLower T) = true)) ∧
    ((∃ k ∈ g.blockedKeywords, k.data <:+: (strings.ToLower T).data) →
      ∀ rs, blockMessage ⟨g.blockedKeywords, rs⟩ T = true) ∧
    blockMessage ⟨[], []⟩ T = false := by
  refine ⟨?_, ?_, ?_⟩
  · rw [blockMessage_iff]
    simp only [strings.Contains_iff]
  · rintro ⟨k, hk, hin⟩ rs
    rw [blockMessage_iff]
    exact Or.inl ⟨k, hk, (strings.Contains_iff _ _).2 hin⟩
  · simp [blockMessage, blockMessage.keywordLoop, blockMessage.regexLoop]

/-! ## Lemmas on `GPT.Invoke` -/

theorem GPT.Invoke.rangeLoop_eq (len : Nat) (rest : List String) (idx : Nat)
    (messages : List ChatCompletionMessage) (hne : rest ≠ [])
    (hlen : idx + rest.length = len) :
    GPT.Invoke.rangeLoop len idx rest messages =
      messages ++ rest.dropLast.map (fun msg => ⟨Role.assistant, msg⟩) := by
  induction rest generalizing idx messages with
  | nil => exact absurd rfl hne
  | cons m rest ih =>
    cases rest with
    | nil =>
      have hidx : idx = len - 1 := by simp at hlen; omega
      simp [GPT.Invoke.rangeLoop, hidx]
    | cons m2 rest =>
      have hidx : ¬ idx = len - 1 := by simp at hlen; omega
      have hlen2 : idx + 1 + (m2 :: rest).length = len := by simp at hlen ⊢; omega
      rw [GPT.Invoke.rangeLoop, if_neg hidx, ih (idx + 1) _ (by simp) hlen2]
      simp

theorem GPT.Invoke.messages_eq (msgs : List String) (hne : msgs ≠ []) :
    GPT.Invoke.messages msgs =
      some (msgs.dropLast.map (fun msg => ⟨Role.assistant, msg⟩) ++
        [⟨Role.user, msgs.getLast hne⟩]) := by
  have hlast : msgs[msgs.length - 1]? = some (msgs.getLast hne) := by
    rw [← List.getLast?_eq_getElem?, List.getLast?_eq_getLast _ hne]
  unfold GPT.Invoke.messages
  simp only [hlast]
  by_cases h1 : msgs.length > 1
  · simp only [h1, if_true]
    rw [GPT.Invoke.rangeLoop_eq msgs.length msgs 0 [] hne (by simp)]
    simp
  · have hl : msgs.length = 1 := by
      have : 0 < msgs.length := List.length_pos.2 hne
      omega
    obtain ⟨m, rfl⟩ := List.length_eq_one.1 hl
    simp

theorem GPT.Invoke_requests (gpt : GPT) (msgs : List String) (hne : msgs ≠ []) :
    (gpt.Invoke msgs).1 =
      [⟨gpt.model, msgs.dropLast.map (fun msg => ⟨Role.assistant, msg⟩) ++
        [⟨Role.user, msgs.getLast hne⟩]⟩] := by
  unfold GPT.Invoke
  rw [GPT.Invoke.messages_eq msgs hne]
  simp only []
  split
  · rfl
  · split <;> rfl

/-- C6: for a non-empty list `msgs`, `GPT.Invoke` sends exactly one request; its
messages are the strings of `msgs` in order, as many as `msgs` has, all but the last
with role assistant and the last with role user. On the empty list the index
`msgs[len(msgs)-1]` is out of range and no request is built. -/
theorem C6_invoke_request (gpt : GPT) (msgs : List String) (hne : msgs ≠ []) :
    (∃ request, (gpt.Invoke msgs).1 = [request] ∧
      request.Model = gpt.model ∧
      request.Messages = msgs.dropLast.map (fun msg => ⟨Role.assistant, msg⟩) ++
        [⟨Role.user, msgs.getLast hne⟩] ∧
      request.Messages.length = msgs.length ∧
      request.Messages.map (fun m => m.Content) = msgs ∧
      (∀ i (hi : i < request.Messages.length),
        (request.Messages.get ⟨i, hi⟩).Role =
          if i + 1 < msgs.length then Role.assistant else Role.user)) ∧
    GPT.Invoke.messages [] = none ∧ (gpt.Invoke []).1 = [] := by
  refine ⟨⟨_, GPT.Invoke_requests gpt msgs hne, rfl, rfl, ?_, ?_, ?_⟩, rfl, rfl⟩
  · have : 0 < msgs.length := List.length_pos.2 hne
    simp only [List.length_append, List.length_map, List.length_dropLast,
      List.length_singleton]
    omega
  · simp only [List.map_append, List.map_map, List.map_cons, List.map_nil]
    have hid : (fun m : ChatCompletionMessage => m.Content) ∘
        (fun msg : String => (⟨Role.assistant, msg⟩ : ChatCompletionMessage)) = id := rfl
    rw [hid, List.map_id]
    exact List.dropLast_append_getLast hne
  · intro i hi
    have hpos : 0 < msgs.length := List.length_pos.2 hne
    simp only [List.length_append, List.length_map, List.length_dropLast,
      List.length_singleton] at hi
    by_cases h : i + 1 < msgs.length
    · simp only [h, if_true, List.get_eq_getElem]
      rw [List.getElem_append_left (by simp; omega)]
      simp
    · simp only [h, if_false, List.get_eq_getElem]
      rw [List.getElem_append_right (by simp; omega)]
      simp

/-- C6, witness: three strings give two assistant messages and one user message. -/
theorem C6_invoke_request_witness :
    (∃ request, (gptOk.Invoke ["a", "b", "c"]).1 = [request] ∧
      request.Model = gptOk.model ∧
      request.Messages = ["a", "b", "c"].dropLast.map (fun msg => ⟨Role.assistant, msg⟩) ++
        [⟨Role.user, ["a", "b", "c"].getLast (by simp)⟩] ∧
      request.Messages.length = ["a", "b", "c"].length ∧
      request.Messages.map (fun m => m.Content) = ["a", "b", "c"] ∧
      (∀ i (hi : i < request.Messages.length),
        (request.Messages.get ⟨i, hi⟩).Role =
          if i + 1 < ["a", "b", "c"].length then Role.assistant else Role.user)) ∧
    GPT.Invoke.messages [] = none ∧ (gptOk.Invoke []).1 = [] :=
  C6_invoke_request gptOk ["a", "b", "c"] (by simp)

/-! ## Lemmas on the message pipeline -/

theorem invocations_append (xs ys : List Action) :
    invocations (xs ++ ys) = invocations xs ++ invocations ys := by
  induction xs with
  | nil => rfl
  | cons a xs ih => cases a <;> simp [invocations, ih]

theorem completionCalls_append (xs ys : List Action) :
    completionCalls (xs ++ ys) = completionCalls xs ++ completionCalls ys := by
  induction xs with
  | nil => rfl
  | cons a xs ih => cases a <;> simp [completionCalls, ih]

theorem invocations_requests (rs : List ChatCompletionRequest) :
    invocations (rs.map .CreateChatCompletion) = [] := by
  induction rs with
  | nil => rfl
  | cons r rs ih => simp [invocations, ih]

theorem completionCalls_requests (rs : List ChatCompletionRequest) :
    completionCalls (rs.map .CreateChatCompletion) = rs := by
  induction rs with
  | nil => rfl
  | cons r rs ih => simp [completionCalls, ih]

theorem invocations_invokeActions (gptClient : GPT) (msgs : List String) :
    invocations (invokeActions gptClient msgs) = [msgs] := by
  simp [invokeActions, invocations, invocations_requests]

theorem completionCalls_invokeActions (gptClient : GPT) (msgs : List String) :
    completionCalls (invokeActions gptClient msgs) = (gptClient.Invoke msgs).1 := by
  simp [invokeActions, completionCalls, completionCalls_requests]

theorem processMessage.historyLoop_eq (history : List Message) (threadMessages : List String) :
    processMessage.historyLoop history threadMessages =
      threadMessages ++ (history.filter (fun m => decide
        (m.BotID = "U05L1SWMW4B" ∧ m.Text ≠ "Your request is being processed..."))).map
          (fun m => m.Text) := by
  induction history generalizing threadMessages with
  | nil => simp [processMessage.historyLoop]
  | cons m history ih =>
    by_cases h : m.BotID = "U05L1SWMW4B" ∧ m.Text ≠ "Your request is being processed..."
    · rw [processMessage.historyLoop, if_pos h, ih, List.filter_cons_of_pos (by simpa using h)]
      simp
    · rw [processMessage.historyLoop, if_neg h, ih, List.filter_cons_of_neg (by simpa using h)]

theorem processMessage.threadContext_calls (client : Client)
    (channel userId threadTimestamp : String) (isPartOfThread : Bool) :
    invocations (processMessage.threadContext client channel userId threadTimestamp
      isPartOfThread).1 = [] ∧
    completionCalls (processMessage.threadContext client channel userId threadTimestamp
      isPartOfThread).1 = [] := by
  unfold processMessage.threadContext
  cases isPartOfThread
  · simp [invocations, completionCalls]
  · cases client.GetConversationReplies channel threadTimestamp <;>
      simp [invocations, completionCalls]

/-- The trace of `processMessage` on a text that is let through, after a successful
post of the placeholder: the post, the calls of the thread block, the one call of
`GPT.Invoke` with its requests, and a tail without any completion call. -/
theorem processMessage_trace (g : Globals) (client : Client) (gptClient : GPT)
    (channel text userId timestamp threadTimestamp : String) (isPartOfThread : Bool)
    (tempMessageTimestamp : String)
    (hallow : blockMessage g text = false)
    (hpost : client.SendMessage channel "Your request is being processed..." timestamp =
      .ok tempMessageTimestamp) :
    ∃ tail, invocations tail = [] ∧ completionCalls tail = [] ∧
      (processMessage g client gptClient channel text userId timestamp threadTimestamp
        isPartOfThread).trace =
        [.SendMessage channel "Your request is being processed..." timestamp] ++
          (processMessage.threadContext client channel userId threadTimestamp
            isPartOfThread).1 ++
          invokeActions gptClient ((processMessage.threadContext client channel userId
            threadTimestamp isPartOfThread).2 ++ [text]) ++ tail := by
  unfold processMessage
  simp only [hallow, hpost, Bool.false_eq_true, if_false]
  cases (gptClient.Invoke ((processMessage.threadContext client channel userId
      threadTimestamp isPartOfThread).2 ++ [text])).2 with
  | panic msg => exact ⟨[], rfl, rfl, by simp⟩
  | err messageErr =>
    exact ⟨[.UpdateMessage channel tempMessageTimestamp
      (.text ("ChatCompletion error: " ++ messageErr))], rfl, rfl, rfl⟩
  | ok messageText =>
    simp only []
    cases client.UpdateMessage channel tempMessageTimestamp (.blocks messageText) with
    | error err =>
      exact ⟨[.UpdateMessage channel tempMessageTimestamp (.blocks messageText)], rfl, rfl, rfl⟩
    | ok u =>
      exact ⟨[.UpdateMessage channel tempMessageTimestamp (.blocks messageText)], rfl, rfl, rfl⟩

/-- The lists passed to `GPT.Invoke` by `processMessage` on a text that is let through,
after a successful post of the placeholder: one list, the thread context followed by
the text. -/
theorem processMessage_invocations (g : Globals) (client : Client) (gptClient : GPT)
    (channel text userId timestamp threadTimestamp : String) (isPartOfThread : Bool)
    (tempMessageTimestamp : String)
    (hallow : blockMessage g text = false)
    (hpost : client.SendMessage channel "Your request is being processed..." timestamp =
      .ok tempMessageTimestamp) :
    invocations (processMessage g client gptClient channel text userId timestamp
      threadTimestamp isPartOfThread).trace =
      [(processMessage.threadContext client channel userId threadTimestamp
        isPartOfThread).2 ++ [text]] := by
  obtain ⟨tail, h1, _, htrace⟩ := processMessage_trace g client gptClient channel text userId
    timestamp threadTimestamp isPartOfThread tempMessageTimestamp hallow hpost
  rw [htrace, invocations_append, invocations_append, invocations_append, h1,
    (processMessage.threadContext_calls _ _ _ _ _).1, invocations_invokeActions]
  rfl

/-- The requests sent to the completion API by `processMessage` on a text that is let
through, after a successful post of the placeholder: those of the one call of
`GPT.Invoke`. -/
theorem processMessage_completionCalls (g : Globals) (client : Client) (gptClient : GPT)
    (channel text userId timestamp threadTimestamp : String) (isPartOfThread : Bool)
    (tempMessageTimestamp : String)
    (hallow : blockMessage g text = false)
    (hpost : client.SendMessage channel "Your request is being processed..." timestamp =
      .ok tempMessageTimestamp) :
    completionCalls (processMessage g client gptClient channel text userId timestamp
      threadTimestamp isPartOfThread).trace =
      (gptClient.Invoke ((processMessage.threadContext client channel userId threadTimestamp
        isPartOfThread).2 ++ [text])).1 := by
  obtain ⟨tail, _, h2, htrace⟩ := processMessage_trace g client gptClient channel text userId
    timestamp threadTimestamp isPartOfThread tempMessageTimestamp hallow hpost
  rw [htrace, completionCalls_append, completionCalls_append, completionCalls_append, h2,
    (processMessage.threadContext_calls _ _ _ _ _).2, completionCalls_invokeActions,
    List.append_nil]
  rfl

/-- The run of `processMessage` on a text that is let through when the post of the
placeholder fails: the post is the only call and an error is returned. -/
theorem processMessage_post_fails (g : Globals) (client : Client) (gptClient : GPT)
    (channel text userId timestamp threadTimestamp : String) (isPartOfThread : Bool)
    (err : String)
    (hallow : blockMessage g text = false)
    (hpost : client.SendMessage channel "Your request is being processed..." timestamp =
      .error err) :
    processMessage g client gptClient channel text userId timestamp threadTimestamp
      isPartOfThread =
      ⟨[.SendMessage channel "Your request is being processed..." timestamp],
        .err ("failed posting initial processing message: " ++ err)⟩ := by
  unfold processMessage
  simp only [hallow, hpost, Bool.false_eq_true, if_false]

theorem strings.TrimPrefix_mention (s : String) :
    strings.TrimPrefix ("<@bot> " ++ s) "<@bot>" = " " ++ s := by
  have h1 : ("<@bot> " ++ s).data = '<' :: '@' :: 'b' :: 'o' :: 't' :: '>' :: ' ' :: s.data :=
    rfl
  have h2 : "<@bot>".data = ['<', '@', 'b', 'o', 't', '>'] := rfl
  have h3 : (" " ++ s) = ⟨' ' :: s.data⟩ := rfl
  simp [strings.TrimPrefix, strings.HasPrefix, h1, h2, h3, strings.hasPrefixChars]

/-! ## The claims on the message pipeline -/

/-- C7, as the code has it: for a mention whose text is `<@bot> ` followed by `s`, that
is not part of a thread, whose stripped text is let through and whose placeholder post
succeeds, `handleAppMentionEvent` calls `GPT.Invoke` exactly once, with the single
string made of a space followed by `s` (the prefix `<@bot>` is removed, the space
after it is kept), and the one request sent carries it as its only message, the user
turn. -/
theorem C7_mention_keeps_space (g : Globals) (client : Client) (gptClient : GPT)
    (ev : AppMentionEvent) (s tempMessageTimestamp : String)
    (htext : ev.Text = "<@bot> " ++ s)
    (hthread : ev.ThreadTimeStamp = "" ∨ ev.ThreadTimeStamp = ev.TimeStamp)
    (hallow : blockMessage g (" " ++ s) = false)
    (hpost : client.SendMessage ev.Channel "Your request is being processed..."
      ev.TimeStamp = .ok tempMessageTimestamp) :
    invocations (handleAppMentionEvent g client gptClient ev).trace = [[" " ++ s]] ∧
    completionCalls (handleAppMentionEvent g client gptClient ev).trace =
      [⟨gptClient.model, [⟨Role.user, " " ++ s⟩]⟩] := by
  have hnot : decide (ev.ThreadTimeStamp ≠ "" ∧ ev.ThreadTimeStamp ≠ ev.TimeStamp) = false := by
    rcases hthread with h | h <;> simp [h]
  unfold handleAppMentionEvent
  simp only [htext, strings.TrimPrefix_mention, hnot]
  constructor
  · rw [processMessage_invocations g client gptClient _ _ _ _ _ _ tempMessageTimestamp hallow
      hpost]
    simp [processMessage.threadContext]
  · rw [processMessage_completionCalls g client gptClient _ _ _ _ _ _ tempMessageTimestamp
      hallow hpost]
    simp only [processMessage.threadContext, Bool.false_eq_true, if_false, List.nil_append]
    rw [GPT.Invoke_requests gptClient [" " ++ s] (by simp)]
    simp

/-- C7, witness: the mention `<@bot> hi` outside a thread, with no rule active and
every call succeeding. -/
theorem C7_mention_keeps_space_witness :
    invocations (handleAppMentionEvent ⟨[], []⟩ (clientOk []) gptOk
      ⟨"U1", "<@bot> hi", "1", "", "C1"⟩).trace = [[" " ++ "hi"]] ∧
    completionCalls (handleAppMentionEvent ⟨[], []⟩ (clientOk []) gptOk
      ⟨"U1", "<@bot> hi", "1", "", "C1"⟩).trace =
      [⟨gptOk.model, [⟨Role.user, " " ++ "hi"⟩]⟩] :=
  C7_mention_keeps_space ⟨[], []⟩ (clientOk []) gptOk ⟨"U1", "<@bot> hi", "1", "", "C1"⟩ "hi"
    "2" rfl (Or.inl rfl) (by decide) rfl

/-- C7, as stated, fails: for the mention `<@bot> hi` outside a thread, with no rule
active and every call succeeding, the list passed to `GPT.Invoke` is the string ` hi`,
with its leading space, not `hi`; and when the placeholder post fails there is no
completion call at all. -/
theorem C7_counterexample :
    blockMessage ⟨[], []⟩ (strings.TrimPrefix "<@bot> hi" "<@bot>") = false ∧
    (handleAppMentionEvent ⟨[], []⟩ (clientOk []) gptOk
      ⟨"U1", "<@bot> hi", "1", "", "C1"⟩).trace =
      [.SendMessage "C1" "Your request is being processed..." "1",
       .Invoke [" hi"],
       .CreateChatCompletion ⟨"gpt-3.5-turbo", [⟨Role.user, " hi"⟩]⟩,
       .UpdateMessage "C1" "2" (.blocks "hello")] ∧
    invocations (handleAppMentionEvent ⟨[], []⟩ (clientOk []) gptOk
      ⟨"U1", "<@bot> hi", "1", "", "C1"⟩).trace ≠ [["hi"]] ∧
    completionCalls (handleAppMentionEvent ⟨[], []⟩ clientPostFails gptOk
      ⟨"U1", "<@bot> hi", "1", "", "C1"⟩).trace = [] :=
  ⟨by decide, by decide, by decide, by decide⟩

/-- C8: for a message event whose text is let through, every list that
`handleMessageEvent` passes to `GPT.Invoke` is the thread context followed by the text
of the event, and exactly that one list is passed when the event is accepted by the
handler and the placeholder post succeeds. The thread context is: when the event is part
of a thread (thread timestamp non-empty and different from the message timestamp) and the
history fetch answers `H`, the texts of the messages of `H` whose `BotID` is the fixed bot
identifier and whose text is not the placeholder, in the order of `H`; and nothing when
the event is not part of a thread or the fetch fails. -/
theorem C8_thread_context (g : Globals) (client : Client) (gptClient : GPT)
    (ev : MessageEvent) (hallow : blockMessage g ev.Text = false) :
    (∀ H, ev.ThreadTimeStamp ≠ "" → ev.ThreadTimeStamp ≠ ev.TimeStamp →
      client.GetConversationReplies ev.Channel ev.ThreadTimeStamp = .ok H →
      (∀ msgs ∈ invocations (handleMessageEvent g client gptClient ev).trace,
        msgs = (H.filter (fun m => decide (m.BotID = "U05L1SWMW4B" ∧
          m.Text ≠ "Your request is being processed..."))).map (fun m => m.Text) ++
            [ev.Text]) ∧
      ((ev.User ≠ "U05L1SWMW4B" ∧ ev.SubType ≠ "message_changed" ∧ ev.BotID = "") →
        (∃ ts, client.SendMessage ev.Channel "Your request is being processed..."
          ev.TimeStamp = .ok ts) →
        invocations (handleMessageEvent g client gptClient ev).trace =
          [(H.filter (fun m => decide (m.BotID = "U05L1SWMW4B" ∧
            m.Text ≠ "Your request is being processed..."))).map (fun m => m.Text) ++
              [ev.Text]])) ∧
    ((ev.ThreadTimeStamp = "" ∨ ev.ThreadTimeStamp = ev.TimeStamp ∨
        ∃ err, client.GetConversationReplies ev.Channel ev.ThreadTimeStamp = .error err) →
      (∀ msgs ∈ invocations (handleMessageEvent g client gptClient ev).trace,
        msgs = [ev.Text]) ∧
      ((ev.User ≠ "U05L1SWMW4B" ∧ ev.SubType ≠ "message_changed" ∧ ev.BotID = "") →
        (∃ ts, client.SendMessage ev.Channel "Your request is being processed..."
          ev.TimeStamp = .ok ts) →
        invocations (handleMessageEvent g client gptClient ev).trace = [[ev.Text]])) := by
  -- the value of `threadMessages` after the thread block, in the two cases
  have hctx1 : ∀ H, ev.ThreadTimeStamp ≠ "" → ev.ThreadTimeStamp ≠ ev.TimeStamp →
      client.GetConversationReplies ev.Channel ev.ThreadTimeStamp = .ok H →
      (processMessage.threadContext client ev.Channel ev.User ev.ThreadTimeStamp
        (decide (ev.ThreadTimeStamp ≠ "" ∧ ev.ThreadTimeStamp ≠ ev.TimeStamp))).2 =
        (H.filter (fun m => decide (m.BotID = "U05L1SWMW4B" ∧
          m.Text ≠ "Your request is being processed..."))).map (fun m => m.Text) := by
    intro H h1 h2 hf
    have hd : decide (ev.ThreadTimeStamp ≠ "" ∧ ev.ThreadTimeStamp ≠ ev.TimeStamp) = true := by
      simp [h1, h2]
    simp only [processMessage.threadContext, hd, if_true, hf,
      processMessage.historyLoop_eq, List.nil_append]
  have hctx2 : (ev.ThreadTimeStamp = "" ∨ ev.ThreadTimeStamp = ev.TimeStamp ∨
        ∃ err, client.GetConversationReplies ev.Channel ev.ThreadTimeStamp = .error err) →
      (processMessage.threadContext client ev.Channel ev.User ev.ThreadTimeStamp
        (decide (ev.ThreadTimeStamp ≠ "" ∧ ev.ThreadTimeStamp ≠ ev.TimeStamp))).2 = [] := by
    intro h
    unfold processMessage.threadContext
    rcases h with h | h | ⟨err, h⟩
    · have hd : decide (ev.ThreadTimeStamp ≠ "" ∧ ev.ThreadTimeStamp ≠ ev.TimeStamp) = false := by
        simp [h]
      rw [hd]; rfl
    · have hd : decide (ev.ThreadTimeStamp ≠ "" ∧ ev.ThreadTimeStamp ≠ ev.TimeStamp) = false := by
        simp [h]
      rw [hd]; rfl
    · rw [h]
      cases decide (ev.ThreadTimeStamp ≠ "" ∧ ev.ThreadTimeStamp ≠ ev.TimeStamp) <;> rfl
  -- the lists passed, in terms of that value
  have hrun : ∀ L, (processMessage.threadContext client ev.Channel ev.User ev.ThreadTimeStamp
        (decide (ev.ThreadTimeStamp ≠ "" ∧ ev.ThreadTimeStamp ≠ ev.TimeStamp))).2 = L →
      (∀ msgs ∈ invocations (handleMessageEvent g client gptClient ev).trace,
        msgs = L ++ [ev.Text]) ∧
      ((ev.User ≠ "U05L1SWMW4B" ∧ ev.SubType ≠ "message_changed" ∧ ev.BotID = "") →
        (∃ ts, client.SendMessage ev.Channel "Your request is being processed..."
          ev.TimeStamp = .ok ts) →
        invocations (handleMessageEvent g client gptClient ev).trace = [L ++ [ev.Text]]) := by
    intro L hL
    unfold handleMessageEvent
    by_cases hacc : ev.User ≠ "U05L1SWMW4B" ∧ ev.SubType ≠ "message_changed" ∧ ev.BotID = ""
    · rw [if_pos hacc]
      cases hp : client.SendMessage ev.Channel "Your request is being processed..."
          ev.TimeStamp with
      | error err =>
        rw [processMessage_post_fails g client gptClient _ _ _ _ _ _ err hallow hp]
        refine ⟨?_, ?_⟩
        · intro msgs hm
          simp [invocations] at hm
        · rintro - ⟨ts, hts⟩
          cases hts
      | ok ts =>
        rw [processMessage_invocations g client gptClient _ _ _ _ _ _ ts hallow hp, hL]
        refine ⟨?_, fun _ _ => rfl⟩
        intro msgs hm
        simpa using hm
    · rw [if_neg hacc]
      refine ⟨?_, fun h => absurd h hacc⟩
      intro msgs hm
      simp [invocations] at hm
  refine ⟨?_, ?_⟩
  · intro H h1 h2 hf
    exact hrun _ (hctx1 H h1 h2 hf)
  · intro h
    have := hrun _ (hctx2 h)
    simpa using this

/-- C8, witness: a reply in the thread `1` whose history holds the first user message,
a placeholder of the bot and two answers of the bot; the list passed has three strings,
the two answers and then the new text. -/
theorem C8_thread_context_witness :
    invocations (handleMessageEvent ⟨["secret"], []⟩
      (clientOk [⟨"", "what is Lean?"⟩, ⟨"U05L1SWMW4B", "Your request is being processed..."⟩,
        ⟨"U05L1SWMW4B", "a prover"⟩, ⟨"U05L1SWMW4B", "and a language"⟩])
      gptOk ⟨"U1", "since when?", "5", "1", "C1", "", ""⟩).trace =
      [["a prover", "and a language", "since when?"]] :=
  ((C8_thread_context ⟨["secret"], []⟩
      (clientOk [⟨"", "what is Lean?"⟩, ⟨"U05L1SWMW4B", "Your request is being processed..."⟩,
        ⟨"U05L1SWMW4B", "a prover"⟩, ⟨"U05L1SWMW4B", "and a language"⟩])
      gptOk ⟨"U1", "since when?", "5", "1", "C1", "", ""⟩ (by decide)).1 _
    (by decide) (by decide) rfl).2 ⟨by decide, by decide, rfl⟩ ⟨"2", rfl⟩

/-- C9: on a text that `blockMessage` blocks, `processMessage` makes exactly one call,
the fixed block notice sent as a reply to the timestamp of the triggering message, and
returns `nil`: no placeholder is posted, no history is fetched and no completion call is
made. -/
theorem C9_blocked_stops (g : Globals) (client : Client) (gptClient : GPT)
    (channel text userId timestamp threadTimestamp : String) (isPartOfThread : Bool)
    (hblock : blockMessage g text = true) :
    processMessage g client gptClient channel text userId timestamp threadTimestamp
      isPartOfThread =
      ⟨[.SendMessage channel
          "Your request was blocked because it contained a blocked keyword or sensitive data."
          timestamp], .nil⟩ ∧
    invocations (processMessage g client gptClient channel text userId timestamp
      threadTimestamp isPartOfThread).trace = [] ∧
    completionCalls (processMessage g client gptClient channel text userId timestamp
      threadTimestamp isPartOfThread).trace = [] := by
  have h : processMessage g client gptClient channel text userId timestamp threadTimestamp
      isPartOfThread =
      ⟨[.SendMessage channel
          "Your request was blocked because it contained a blocked keyword or sensitive data."
          timestamp], .nil⟩ := by
    unfold processMessage
    simp only [hblock, if_true]
  rw [h]
  exact ⟨rfl, rfl, rfl⟩

/-- C9, witness: the text `my SECRET token` in a thread, with the keyword `secret`
active. -/
theorem C9_blocked_stops_witness :
    processMessage ⟨["secret"], [ssnPattern]⟩ (clientOk []) gptOk "C1" "my SECRET token" "U1"
      "5" "1" true =
      ⟨[.SendMessage "C1"
          "Your request was blocked because it contained a blocked keyword or sensitive data."
          "5"], .nil⟩ ∧
    invocations (processMessage ⟨["secret"], [ssnPattern]⟩ (clientOk []) gptOk "C1"
      "my SECRET token" "U1" "5" "1" true).trace = [] ∧
    completionCalls (processMessage ⟨["secret"], [ssnPattern]⟩ (clientOk []) gptOk "C1"
      "my SECRET token" "U1" "5" "1" true).trace = [] :=
  C9_blocked_stops ⟨["secret"], [ssnPattern]⟩ (clientOk []) gptOk "C1" "my SECRET token" "U1"
    "5" "1" true (by decide)

/-- C10, as the code has it: on a text that is let through, when the post of the
placeholder succeeds `processMessage` calls `GPT.Invoke` exactly once and sends exactly
one request to the completion API, whatever the thread flag and the outcome of the
history fetch; when the post of the placeholder fails it makes no completion call and
returns the error of the post. -/
theorem C10_one_call_after_post (g : Globals) (client : Client) (gptClient : GPT)
    (channel text userId timestamp threadTimestamp : String) (isPartOfThread : Bool)
    (hallow : blockMessage g text = false) :
    (∀ tempMessageTimestamp,
      client.SendMessage channel "Your request is being processed..." timestamp =
        .ok tempMessageTimestamp →
      (invocations (processMessage g client gptClient channel text userId timestamp
        threadTimestamp isPartOfThread).trace).length = 1 ∧
      (completionCalls (processMessage g client gptClient channel text userId timestamp
        threadTimestamp isPartOfThread).trace).length = 1) ∧
    (∀ err,
      client.SendMessage channel "Your request is being processed..." timestamp =
        .error err →
      invocations (processMessage g client gptClient channel text userId timestamp
        threadTimestamp isPartOfThread).trace = [] ∧
      completionCalls (processMessage g client gptClient channel text userId timestamp
        threadTimestamp isPartOfThread).trace = [] ∧
      (processMessage g client gptClient channel text userId timestamp
        threadTimestamp isPartOfThread).result =
        .err ("failed posting initial processing message: " ++ err)) := by
  refine ⟨?_, ?_⟩
  · intro ts hpost
    rw [processMessage_invocations g client gptClient _ _ _ _ _ _ ts hallow hpost,
      processMessage_completionCalls g client gptClient _ _ _ _ _ _ ts hallow hpost,
      GPT.Invoke_requests gptClient _ (by simp)]
    exact ⟨rfl, rfl⟩
  · intro err hpost
    rw [processMessage_post_fails g client gptClient _ _ _ _ _ _ err hallow hpost]
    exact ⟨rfl, rfl, rfl⟩

/-- C10, witness: the text `hello world` in a thread whose history cannot be fetched. -/
theorem C10_one_call_after_post_witness :
    (invocations (processMessage ⟨["secret"], [ssnPattern]⟩ clientFetchFails gptOk "C1"
      "hello world" "U1" "5" "1" true).trace).length = 1 ∧
    (completionCalls (processMessage ⟨["secret"], [ssnPattern]⟩ clientFetchFails gptOk "C1"
      "hello world" "U1" "5" "1" true).trace).length = 1 :=
  (C10_one_call_after_post ⟨["secret"], [ssnPattern]⟩ clientFetchFails gptOk "C1"
    "hello world" "U1" "5" "1" true (by decide)).1 "2" rfl

/-- C10, as stated, fails: the text `hello world` is let through, the post of the
placeholder fails, and `processMessage` returns the error without any completion call. -/
theorem C10_counterexample :
    blockMessage ⟨["secret"], [ssnPattern]⟩ "hello world" = false ∧
    processMessage ⟨["secret"], [ssnPattern]⟩ clientPostFails gptOk "C1" "hello world" "U1"
      "5" "" false =
      ⟨[.SendMessage "C1" "Your request is being processed..." "5"],
        .err "failed posting initial processing message: channel_not_found"⟩ ∧
    completionCalls (processMessage ⟨["secret"], [ssnPattern]⟩ clientPostFails gptOk "C1"
      "hello world" "U1" "5" "" false).trace = [] ∧
    invocations (processMessage ⟨["secret"], [ssnPattern]⟩ clientPostFails gptOk "C1"
      "hello world" "U1" "5" "" false).trace = [] :=
  ⟨by decide, by decide, by decide, by decide⟩

end SlackGPT
